import Mathlib

/-!
Verification of the paper-trading core of the paradex-bot repository.

The embedding below translates the pure state and computation of
`app/paper_trading/order_simulator.py`, `app/paper_trading/portfolio_tracker.py`
and `app/paper_trading/paper_exchange.py` into Lean.  Python floats are
modelled as rationals (`ℚ`), Python dicts keyed by order id as lists of
orders (insertion order preserved, at most one entry per id in all uses),
and the dict keyed by position side as one optional slot per side.
Timestamps (`created_at`) and logging calls carry no ledger state and are
omitted.
-/

namespace PaperBot

/-- Order side, as in `app/models/generic_order_side.py`. -/
inductive OrderSide where
  | BUY
  | SELL
deriving DecidableEq, Repr

/-- Position side, as in `app/models/generic_position_side.py`. -/
inductive PositionSide where
  | LONG
  | SHORT
deriving DecidableEq, Repr

/-- `DataOrder` from `app/models/data_order.py` (timestamp omitted). -/
structure DataOrder where
  id : String
  side : OrderSide
  size : ℚ
  price : ℚ
deriving DecidableEq, Repr

/-- `DataPosition` from `app/models/data_position.py` (timestamp omitted). -/
structure DataPosition where
  side : PositionSide
  size : ℚ
  entry_price : ℚ
deriving DecidableEq, Repr

/-! ## OrderSimulator (`app/paper_trading/order_simulator.py`) -/

/-- `OrderSimulator.MAKER_FEE_RATE = -0.0002`. -/
def MAKER_FEE_RATE : ℚ := -2 / 10000

/-- `OrderSimulator.TAKER_FEE_RATE = 0.0005`. -/
def TAKER_FEE_RATE : ℚ := 5 / 10000

/-- `OrderSimulator.calculate_fee`: notional times maker or taker rate. -/
def calculate_fee (fill_price fill_size : ℚ) (is_maker : Bool) : ℚ :=
  (fill_price * fill_size) * (if is_maker then MAKER_FEE_RATE else TAKER_FEE_RATE)

/-- `OrderSimulator.calculate_realized_pnl`. -/
def calculate_realized_pnl (entry_price exit_price size : ℚ) (is_long : Bool) : ℚ :=
  if is_long then (exit_price - entry_price) * size
  else (entry_price - exit_price) * size

/-- `OrderSimulator._get_available_liquidity`: walk the level list, summing
sizes of levels at or better than `price`, stopping at the first level that
fails the threshold (the `break` in the Python loop). -/
def _get_available_liquidity (orders_list : List (ℚ × ℚ)) (price : ℚ)
    (is_buy : Bool) : ℚ :=
  match orders_list with
  | [] => 0
  | (order_price, order_size) :: rest =>
      if is_buy then
        if order_price ≤ price then
          order_size + _get_available_liquidity rest price is_buy
        else 0
      else
        if price ≤ order_price then
          order_size + _get_available_liquidity rest price is_buy
        else 0

/-- `OrderSimulator.check_limit_order_fill`: decide whether a resting limit
order would fill against the current book, returning
`(fill_price, fill_size, is_maker)` on a fill. -/
def check_limit_order_fill (order : DataOrder) (bid_price ask_price : ℚ)
    (buy_orders_list sell_orders_list : List (ℚ × ℚ)) :
    Option (ℚ × ℚ × Bool) :=
  match order.side with
  | OrderSide.BUY =>
      if ask_price ≤ order.price then
        let is_maker := decide (order.price < bid_price)
        let fill_price := if is_maker then order.price else min order.price ask_price
        let available := _get_available_liquidity sell_orders_list order.price true
        let fill_size := if available < order.size then available else order.size
        if 0 < fill_size then some (fill_price, fill_size, is_maker) else none
      else none
  | OrderSide.SELL =>
      if order.price ≤ bid_price then
        let is_maker := decide (ask_price < order.price)
        let fill_price := if is_maker then order.price else max order.price bid_price
        let available := _get_available_liquidity buy_orders_list order.price false
        let fill_size := if available < order.size then available else order.size
        if 0 < fill_size then some (fill_price, fill_size, is_maker) else none
      else none

/-- The level-walking loop inside `OrderSimulator._walk_order_book`:
returns `(total_cost, total_filled, remaining_size)` after consuming the
given levels (the caller passes the first ten levels only). -/
def _walk_levels (orders_list : List (ℚ × ℚ)) (remaining_size : ℚ) :
    ℚ × ℚ × ℚ :=
  match orders_list with
  | [] => (0, 0, remaining_size)
  | (order_price, order_size) :: rest =>
      if remaining_size ≤ 0 then (0, 0, remaining_size)
      else
        let fill_at_level := min remaining_size order_size
        let w := _walk_levels rest (remaining_size - fill_at_level)
        (fill_at_level * order_price + w.1, fill_at_level + w.2.1, w.2.2)

/-- `OrderSimulator._walk_order_book`: empty book fills the full size at the
starting price with 1% slippage; otherwise walk at most ten levels and fill
any remainder at the last walked level price with 2% slippage, returning the
size-weighted average price and the total filled size. -/
def _walk_order_book (orders_list : List (ℚ × ℚ)) (size starting_price : ℚ)
    (is_buy : Bool) : ℚ × ℚ :=
  match orders_list with
  | [] => (starting_price * (if is_buy then (101 : ℚ) / 100 else 99 / 100), size)
  | _ :: _ =>
      let w := _walk_levels (orders_list.take 10) size
      let total_cost :=
        if 0 < w.2.2 then
          w.1 + w.2.2 *
            ((orders_list.getD (min 9 (orders_list.length - 1)) (0, 0)).1 *
              (if is_buy then (102 : ℚ) / 100 else 98 / 100))
        else w.1
      let total_filled := if 0 < w.2.2 then w.2.1 + w.2.2 else w.2.1
      if 0 < total_filled then (total_cost / total_filled, total_filled)
      else (starting_price, total_filled)

/-- `OrderSimulator.simulate_market_order_fill`: a market BUY walks the sell
side starting from the best ask, a market SELL walks the buy side starting
from the best bid. -/
def simulate_market_order_fill (side : OrderSide) (size bid_price ask_price : ℚ)
    (buy_orders_list sell_orders_list : List (ℚ × ℚ)) : ℚ × ℚ :=
  match side with
  | OrderSide.BUY => _walk_order_book sell_orders_list size ask_price true
  | OrderSide.SELL => _walk_order_book buy_orders_list size bid_price false

/-! ## PortfolioTracker (`app/paper_trading/portfolio_tracker.py`) -/

/-- The mutable state of `PortfolioTracker`.  The Python dict
`open_positions: Dict[GenericPositionSide, DataPosition]` has exactly two
possible keys, so it is modelled as one optional slot per side; the dict
`open_orders: Dict[str, DataOrder]` is modelled as an insertion-ordered
list with at most one entry per id. -/
structure PortfolioTracker where
  initial_balance : ℚ
  balance : ℚ
  max_leverage : ℚ
  open_orders : List DataOrder
  long_pos : Option DataPosition
  short_pos : Option DataPosition
  total_trades : ℕ
  winning_trades : ℕ
  total_fees_paid : ℚ
  peak_balance : ℚ
  max_drawdown : ℚ
deriving DecidableEq, Repr

/-- The dict lookup `self.open_positions.get(side)`. -/
def get_position (pf : PortfolioTracker) (side : PositionSide) :
    Option DataPosition :=
  match side with
  | PositionSide.LONG => pf.long_pos
  | PositionSide.SHORT => pf.short_pos

/-- Writing (or deleting, with `none`) the position slot for one side. -/
def set_position (pf : PortfolioTracker) (side : PositionSide)
    (p : Option DataPosition) : PortfolioTracker :=
  match side with
  | PositionSide.LONG => { pf with long_pos := p }
  | PositionSide.SHORT => { pf with short_pos := p }

/-- `PortfolioTracker.add_order`: dict assignment `open_orders[id] = order`
(replace in place when the id is present, append otherwise). -/
def add_order (pf : PortfolioTracker) (order : DataOrder) : PortfolioTracker :=
  if pf.open_orders.any (fun o => o.id == order.id) then
    { pf with open_orders :=
        pf.open_orders.map (fun o => if o.id == order.id then order else o) }
  else
    { pf with open_orders := pf.open_orders ++ [order] }

/-- `PortfolioTracker.remove_order`: `open_orders.pop(order_id, None)`,
returning the removed order (or `none`) together with the new state. -/
def remove_order (pf : PortfolioTracker) (order_id : String) :
    Option DataOrder × PortfolioTracker :=
  match pf.open_orders.find? (fun o => o.id == order_id) with
  | none => (none, pf)
  | some o =>
      (some o,
       { pf with open_orders := pf.open_orders.filter (fun o => !(o.id == order_id)) })

/-- `PortfolioTracker.update_position`: size 0 deletes the slot, otherwise
the slot is replaced wholesale; then the realized PnL (when non-zero) is
added to the balance. -/
def update_position (pf : PortfolioTracker) (side : PositionSide)
    (size entry_price realized_pnl : ℚ) : PortfolioTracker :=
  let pf1 :=
    if size = 0 then set_position pf side none
    else set_position pf side
      (some { side := side, size := size, entry_price := entry_price })
  if realized_pnl ≠ 0 then { pf1 with balance := pf1.balance + realized_pnl }
  else pf1

/-- `PortfolioTracker.apply_fee`: subtract the fee from the balance and
accumulate it into total fees paid. -/
def apply_fee (pf : PortfolioTracker) (fee_amount : ℚ) : PortfolioTracker :=
  { pf with balance := pf.balance - fee_amount,
            total_fees_paid := pf.total_fees_paid + fee_amount }

/-- The values of the position dict, in LONG-then-SHORT order (the order is
irrelevant: every consumer below folds with a commutative sum). -/
def positions_list (pf : PortfolioTracker) : List DataPosition :=
  pf.long_pos.toList ++ pf.short_pos.toList

/-- `PortfolioTracker.get_total_position_value`: sum of absolute position
size times mark price over the open positions. -/
def get_total_position_value (pf : PortfolioTracker) (mark_price : ℚ) : ℚ :=
  ((positions_list pf).map (fun p => |p.size| * mark_price)).sum

/-- The per-position branch of `PortfolioTracker.get_unrealized_pnl`. -/
def position_unrealized_pnl (p : DataPosition) (mark_price : ℚ) : ℚ :=
  match p.side with
  | PositionSide.LONG => (mark_price - p.entry_price) * p.size
  | PositionSide.SHORT => (p.entry_price - mark_price) * p.size

/-- `PortfolioTracker.get_unrealized_pnl`: total over the open positions. -/
def get_unrealized_pnl (pf : PortfolioTracker) (mark_price : ℚ) : ℚ :=
  ((positions_list pf).map (fun p => position_unrealized_pnl p mark_price)).sum

/-- `PortfolioTracker.get_equity`: balance plus unrealized PnL. -/
def get_equity (pf : PortfolioTracker) (mark_price : ℚ) : ℚ :=
  pf.balance + get_unrealized_pnl pf mark_price

/-- `PortfolioTracker.can_open_position`: the static margin check. -/
def can_open_position (pf : PortfolioTracker) (size price mark_price : ℚ) :
    Bool :=
  let required_margin := size * price / pf.max_leverage
  let equity := get_equity pf mark_price
  let position_value := get_total_position_value pf mark_price
  let used_margin := position_value / pf.max_leverage
  let available_margin := equity - used_margin
  decide (required_margin ≤ available_margin)

/-- `PortfolioTracker.record_trade`: bump the trade counters, raise the peak
balance to the current balance when exceeded, then retain the largest
drawdown fraction ever observed. -/
def record_trade (pf : PortfolioTracker) (profitable : Bool) :
    PortfolioTracker :=
  let pf1 := { pf with
    total_trades := pf.total_trades + 1,
    winning_trades := pf.winning_trades + (if profitable then 1 else 0) }
  let pf2 :=
    if pf1.peak_balance < pf1.balance then { pf1 with peak_balance := pf1.balance }
    else pf1
  let current_drawdown := (pf2.peak_balance - pf2.balance) / pf2.peak_balance
  if pf2.max_drawdown < current_drawdown then
    { pf2 with max_drawdown := current_drawdown }
  else pf2

/-! ## PaperTradingExchange (`app/paper_trading/paper_exchange.py`)

Only the ledger-state content of the exchange methods is embedded: the
wrapped real exchange supplies market data (passed here as arguments), the
generated uuid is passed as an argument, and trade-logger calls are no-ops
on ledger state. -/

/-- BUY implies LONG, SELL implies SHORT (`_process_fill`). -/
def implied_position_side : OrderSide → PositionSide
  | OrderSide.BUY => PositionSide.LONG
  | OrderSide.SELL => PositionSide.SHORT

/-- The opposite of the implied position side (`_process_fill`). -/
def opposite_position_side : OrderSide → PositionSide
  | OrderSide.BUY => PositionSide.SHORT
  | OrderSide.SELL => PositionSide.LONG

/-- `PaperTradingExchange._process_fill`: close against an opposite
position first (realizing PnL and recording a trade), then open or add to
the implied-side position with any remaining fill size. -/
def _process_fill (pf : PortfolioTracker) (order_side : OrderSide)
    (fill_price fill_size : ℚ) : PortfolioTracker :=
  let position_side := implied_position_side order_side
  let opposite_side := opposite_position_side order_side
  let opposite_position := get_position pf opposite_side
  let current_position := get_position pf position_side
  let step2 :=
    match opposite_position with
    | some opp =>
        let close_size := min fill_size opp.size
        let is_long_close := decide (opposite_side = PositionSide.LONG)
        let realized_pnl :=
          calculate_realized_pnl opp.entry_price fill_price close_size is_long_close
        let new_size := opp.size - close_size
        let pfa := update_position pf opposite_side new_size opp.entry_price realized_pnl
        let pfb := record_trade pfa (decide (0 < realized_pnl))
        (pfb, fill_size - close_size)
    | none => (pf, fill_size)
  let pf1 := step2.1
  let fill_size1 := step2.2
  if 0 < fill_size1 then
    match current_position with
    | some cur =>
        let total_size := cur.size + fill_size1
        let avg_entry :=
          (cur.entry_price * cur.size + fill_price * fill_size1) / total_size
        update_position pf1 position_side total_size avg_entry 0
    | none => update_position pf1 position_side fill_size1 fill_price 0
  else pf1

/-- `PaperTradingExchange.modify_limit_order`: remove the order by id
(returning `none` and leaving the state untouched when absent), then insert
a fresh order under the same id with the new terms.  The `is_reduce`
argument of the Python method is unused by its body and omitted here. -/
def modify_limit_order (pf : PortfolioTracker) (order_id : String)
    (order_side : OrderSide) (order_size price : ℚ) :
    Option DataOrder × PortfolioTracker :=
  let removed := remove_order pf order_id
  match removed.1 with
  | none => (none, removed.2)
  | some _ =>
      let new_order : DataOrder :=
        { id := order_id, side := order_side, size := order_size, price := price }
      (some new_order, add_order removed.2 new_order)

/-- `PaperTradingExchange.open_limit_order`: unless reduce-only, resolve the
mark price (falling back to the limit price when the mark is absent or
zero, the Python truthiness test) and consult the margin check, rejecting
with `none` on failure; otherwise insert the new order under the freshly
generated id. -/
def open_limit_order (pf : PortfolioTracker) (order_id : String)
    (order_side : OrderSide) (order_size price : ℚ) (mark_price : Option ℚ)
    (is_reduce : Bool) : Option DataOrder × PortfolioTracker :=
  let mark_price_float :=
    match mark_price with
    | some m => if m ≠ 0 then m else price
    | none => price
  if !is_reduce && !(can_open_position pf order_size price mark_price_float) then
    (none, pf)
  else
    let order : DataOrder :=
      { id := order_id, side := order_side, size := order_size, price := price }
    (some order, add_order pf order)

/-- `PaperTradingExchange.cancel_all_orders`: `open_orders.clear()`. -/
def cancel_all_orders (pf : PortfolioTracker) : PortfolioTracker :=
  { pf with open_orders := [] }

/-! ## Event order of the two fill paths

The temporal claim about simulated latency concerns the order of the
statements inside `open_market_order` and the fill-processing block of
`_monitor_orders`; each path is embedded as the sequence of its
ledger-relevant steps, in source order. -/

/-- The ledger-relevant steps of the two fill paths. -/
inductive FillStep where
  | margin_check
  | fill_decision
  | latency_sleep
  | remove_order_step
  | apply_fee_step
  | update_position_step
deriving DecidableEq, Repr

/-- Statement order of `open_market_order`: margin check, then
`simulate_fill_delay`, then `simulate_market_order_fill`, then
`apply_fee`, then `_process_fill`. -/
def open_market_order_steps : List FillStep :=
  [FillStep.margin_check, FillStep.latency_sleep, FillStep.fill_decision,
   FillStep.apply_fee_step, FillStep.update_position_step]

/-- Statement order of one fill in `_monitor_orders`:
`check_limit_order_fill`, then `remove_order`, then `apply_fee`, then
`simulate_fill_delay`, then `_process_fill`. -/
def monitor_fill_steps : List FillStep :=
  [FillStep.fill_decision, FillStep.remove_order_step, FillStep.apply_fee_step,
   FillStep.latency_sleep, FillStep.update_position_step]

/-- Which steps mutate the ledger. -/
def is_ledger_mutation : FillStep → Bool
  | FillStep.remove_order_step => true
  | FillStep.apply_fee_step => true
  | FillStep.update_position_step => true
  | _ => false

/-- A step sequence keeps every ledger mutation strictly after the latency
sleep. -/
def latency_before_mutations (steps : List FillStep) : Prop :=
  (steps.takeWhile (fun e => !(e == FillStep.latency_sleep))).all
    (fun e => !(is_ledger_mutation e)) = true

instance (steps : List FillStep) : Decidable (latency_before_mutations steps) := by
  unfold latency_before_mutations
  infer_instance

/-! ## Portfolio operation sequences

For the monotonicity claim about peak balance and max drawdown, the
mutating methods of `PortfolioTracker` are wrapped in one operation type so
that an arbitrary call sequence is a list. -/

/-- One mutating `PortfolioTracker` method call. -/
inductive PortfolioOp where
  | add_order_op (order : DataOrder)
  | remove_order_op (order_id : String)
  | update_position_op (side : PositionSide) (size entry_price realized_pnl : ℚ)
  | apply_fee_op (fee_amount : ℚ)
  | record_trade_op (profitable : Bool)
deriving DecidableEq, Repr

/-- Apply one mutating method. -/
def apply_portfolio_op (pf : PortfolioTracker) : PortfolioOp → PortfolioTracker
  | PortfolioOp.add_order_op o => add_order pf o
  | PortfolioOp.remove_order_op oid => (remove_order pf oid).2
  | PortfolioOp.update_position_op s sz ep pnl => update_position pf s sz ep pnl
  | PortfolioOp.apply_fee_op f => apply_fee pf f
  | PortfolioOp.record_trade_op prof => record_trade pf prof

/-- Apply a sequence of mutating method calls, first to last. -/
def apply_portfolio_ops (pf : PortfolioTracker) (ops : List PortfolioOp) :
    PortfolioTracker :=
  ops.foldl apply_portfolio_op pf

/-- A concrete portfolio used to instantiate hypothesis-bearing theorems:
the constructor state for 1000 USDC at 5x leverage. -/
def sample_portfolio : PortfolioTracker :=
  { initial_balance := 1000, balance := 1000, max_leverage := 5,
    open_orders := [], long_pos := none, short_pos := none,
    total_trades := 0, winning_trades := 0, total_fees_paid := 0,
    peak_balance := 1000, max_drawdown := 0 }

/-! ## Helper lemmas on the ledger operations -/

lemma update_position_balance (pf : PortfolioTracker) (s : PositionSide)
    (sz ep pnl : ℚ) :
    (update_position pf s sz ep pnl).balance = pf.balance + pnl := by
  unfold update_position set_position
  cases s <;> split_ifs with h1 h2 <;> simp_all

lemma update_position_peak (pf : PortfolioTracker) (s : PositionSide)
    (sz ep pnl : ℚ) :
    (update_position pf s sz ep pnl).peak_balance = pf.peak_balance := by
  unfold update_position set_position
  cases s <;> split_ifs <;> rfl

lemma update_position_drawdown (pf : PortfolioTracker) (s : PositionSide)
    (sz ep pnl : ℚ) :
    (update_position pf s sz ep pnl).max_drawdown = pf.max_drawdown := by
  unfold update_position set_position
  cases s <;> split_ifs <;> rfl

lemma update_position_counters (pf : PortfolioTracker) (s : PositionSide)
    (sz ep pnl : ℚ) :
    (update_position pf s sz ep pnl).total_trades = pf.total_trades
    ∧ (update_position pf s sz ep pnl).winning_trades = pf.winning_trades := by
  unfold update_position set_position
  cases s <;> split_ifs <;> exact ⟨rfl, rfl⟩

lemma get_position_update_same (pf : PortfolioTracker) (s : PositionSide)
    (sz ep pnl : ℚ) :
    get_position (update_position pf s sz ep pnl) s
      = if sz = 0 then none
        else some { side := s, size := sz, entry_price := ep } := by
  unfold update_position set_position get_position
  cases s <;> split_ifs <;> rfl

lemma get_position_update_other (pf : PortfolioTracker) (s s2 : PositionSide)
    (sz ep pnl : ℚ) (h : s2 ≠ s) :
    get_position (update_position pf s sz ep pnl) s2 = get_position pf s2 := by
  unfold update_position set_position get_position
  cases s <;> cases s2 <;>
    first
    | exact absurd rfl h
    | (split_ifs <;> rfl)

lemma record_trade_peak (pf : PortfolioTracker) (prof : Bool) :
    (record_trade pf prof).peak_balance = max pf.peak_balance pf.balance := by
  unfold record_trade
  dsimp only
  by_cases h : pf.peak_balance < pf.balance
  · rw [if_pos h, max_eq_right (le_of_lt h)]
    dsimp only
    split_ifs <;> rfl
  · rw [if_neg h, max_eq_left (le_of_not_lt h)]
    dsimp only
    split_ifs <;> rfl

lemma record_trade_drawdown (pf : PortfolioTracker) (prof : Bool) :
    (record_trade pf prof).max_drawdown
      = max pf.max_drawdown
          ((max pf.peak_balance pf.balance - pf.balance)
            / max pf.peak_balance pf.balance) := by
  unfold record_trade
  dsimp only
  by_cases h : pf.peak_balance < pf.balance
  · rw [if_pos h, max_eq_right (le_of_lt h)]
    dsimp only
    by_cases h2 : pf.max_drawdown < (pf.balance - pf.balance) / pf.balance
    · rw [if_pos h2]
      exact (max_eq_right (le_of_lt h2)).symm
    · rw [if_neg h2]
      exact (max_eq_left (le_of_not_lt h2)).symm
  · rw [if_neg h, max_eq_left (le_of_not_lt h)]
    dsimp only
    by_cases h2 : pf.max_drawdown < (pf.peak_balance - pf.balance) / pf.peak_balance
    · rw [if_pos h2]
      exact (max_eq_right (le_of_lt h2)).symm
    · rw [if_neg h2]
      exact (max_eq_left (le_of_not_lt h2)).symm

lemma record_trade_frame (pf : PortfolioTracker) (prof : Bool) :
    (record_trade pf prof).balance = pf.balance
    ∧ (record_trade pf prof).long_pos = pf.long_pos
    ∧ (record_trade pf prof).short_pos = pf.short_pos
    ∧ (record_trade pf prof).open_orders = pf.open_orders
    ∧ (record_trade pf prof).total_fees_paid = pf.total_fees_paid := by
  unfold record_trade
  dsimp only
  split_ifs <;> exact ⟨rfl, rfl, rfl, rfl, rfl⟩

lemma record_trade_counters (pf : PortfolioTracker) (prof : Bool) :
    (record_trade pf prof).total_trades = pf.total_trades + 1
    ∧ (record_trade pf prof).winning_trades
        = pf.winning_trades + (if prof then 1 else 0) := by
  unfold record_trade
  dsimp only
  split_ifs <;> exact ⟨rfl, rfl⟩

lemma get_position_record_trade (pf : PortfolioTracker) (prof : Bool)
    (s : PositionSide) :
    get_position (record_trade pf prof) s = get_position pf s := by
  cases s <;>
    simp only [get_position, (record_trade_frame pf prof).2.1,
      (record_trade_frame pf prof).2.2.1]

lemma add_order_frame (pf : PortfolioTracker) (o : DataOrder) :
    (add_order pf o).peak_balance = pf.peak_balance
    ∧ (add_order pf o).max_drawdown = pf.max_drawdown := by
  unfold add_order
  split_ifs <;> exact ⟨rfl, rfl⟩

lemma remove_order_frame (pf : PortfolioTracker) (oid : String) :
    (remove_order pf oid).2.peak_balance = pf.peak_balance
    ∧ (remove_order pf oid).2.max_drawdown = pf.max_drawdown := by
  unfold remove_order
  cases pf.open_orders.find? (fun o => o.id == oid) <;> exact ⟨rfl, rfl⟩

lemma apply_op_peak_drawdown_mono (pf : PortfolioTracker) (op : PortfolioOp) :
    pf.peak_balance ≤ (apply_portfolio_op pf op).peak_balance
    ∧ pf.max_drawdown ≤ (apply_portfolio_op pf op).max_drawdown := by
  cases op with
  | add_order_op o =>
      rw [apply_portfolio_op, (add_order_frame pf o).1, (add_order_frame pf o).2]
      exact ⟨le_refl _, le_refl _⟩
  | remove_order_op oid =>
      rw [apply_portfolio_op, (remove_order_frame pf oid).1,
        (remove_order_frame pf oid).2]
      exact ⟨le_refl _, le_refl _⟩
  | update_position_op s sz ep pnl =>
      rw [apply_portfolio_op, update_position_peak, update_position_drawdown]
      exact ⟨le_refl _, le_refl _⟩
  | apply_fee_op f =>
      rw [apply_portfolio_op]
      exact ⟨le_refl _, le_refl _⟩
  | record_trade_op prof =>
      rw [apply_portfolio_op, record_trade_peak, record_trade_drawdown]
      exact ⟨le_max_left _ _, le_max_left _ _⟩

lemma apply_ops_peak_drawdown_mono (ops : List PortfolioOp)
    (pf : PortfolioTracker) :
    pf.peak_balance ≤ (apply_portfolio_ops pf ops).peak_balance
    ∧ pf.max_drawdown ≤ (apply_portfolio_ops pf ops).max_drawdown := by
  induction ops generalizing pf with
  | nil => exact ⟨le_refl _, le_refl _⟩
  | cons op rest ih =>
      have h1 := apply_op_peak_drawdown_mono pf op
      have h2 := ih (apply_portfolio_op pf op)
      exact ⟨le_trans h1.1 h2.1, le_trans h1.2 h2.2⟩

lemma ite_short_long {α : Sort _} (a b : α) :
    (if PositionSide.SHORT = PositionSide.LONG then a else b) = b :=
  if_neg (fun h => PositionSide.noConfusion h)

lemma ite_long_short {α : Sort _} (a b : α) :
    (if PositionSide.LONG = PositionSide.SHORT then a else b) = b :=
  if_neg (fun h => PositionSide.noConfusion h)

lemma get_position_update (pf : PortfolioTracker) (s s2 : PositionSide)
    (sz ep pnl : ℚ) :
    get_position (update_position pf s sz ep pnl) s2
      = if s2 = s then
          (if sz = 0 then none
           else some { side := s, size := sz, entry_price := ep })
        else get_position pf s2 := by
  by_cases h : s2 = s
  · subst h
    rw [if_pos rfl]
    exact get_position_update_same pf s2 sz ep pnl
  · rw [if_neg h]
    exact get_position_update_other pf s s2 sz ep pnl h

lemma record_trade_balance (pf : PortfolioTracker) (prof : Bool) :
    (record_trade pf prof).balance = pf.balance :=
  (record_trade_frame pf prof).1

lemma record_trade_total (pf : PortfolioTracker) (prof : Bool) :
    (record_trade pf prof).total_trades = pf.total_trades + 1 :=
  (record_trade_counters pf prof).1

lemma record_trade_wins (pf : PortfolioTracker) (prof : Bool) :
    (record_trade pf prof).winning_trades
      = pf.winning_trades + (if prof then 1 else 0) :=
  (record_trade_counters pf prof).2

lemma update_position_total (pf : PortfolioTracker) (s : PositionSide)
    (sz ep pnl : ℚ) :
    (update_position pf s sz ep pnl).total_trades = pf.total_trades :=
  (update_position_counters pf s sz ep pnl).1

lemma update_position_wins (pf : PortfolioTracker) (s : PositionSide)
    (sz ep pnl : ℚ) :
    (update_position pf s sz ep pnl).winning_trades = pf.winning_trades :=
  (update_position_counters pf s sz ep pnl).2

lemma filter_no_id (l : List DataOrder) (oid : String) :
    (l.filter (fun o => !(o.id == oid))).any (fun o => o.id == oid) = false := by
  induction l with
  | nil => rfl
  | cons a t ih =>
      cases hb : (a.id == oid) with
      | true => simp [List.filter_cons, hb, ih]
      | false => simp [List.filter_cons, hb, ih]

lemma modify_limit_order_found (pf : PortfolioTracker) (order_id : String)
    (order_side : OrderSide) (order_size price : ℚ) (old : DataOrder)
    (h : pf.open_orders.find? (fun o => o.id == order_id) = some old) :
    modify_limit_order pf order_id order_side order_size price =
      (some { id := order_id, side := order_side, size := order_size, price := price },
       { pf with open_orders :=
           pf.open_orders.filter (fun o => !(o.id == order_id))
             ++ [{ id := order_id, side := order_side, size := order_size,
                   price := price }] }) := by
  unfold modify_limit_order remove_order add_order
  rw [h]
  dsimp only
  rw [filter_no_id]
  rfl

lemma modify_limit_order_not_found (pf : PortfolioTracker) (order_id : String)
    (order_side : OrderSide) (order_size price : ℚ)
    (h : pf.open_orders.find? (fun o => o.id == order_id) = none) :
    modify_limit_order pf order_id order_side order_size price = (none, pf) := by
  unfold modify_limit_order remove_order
  rw [h]

lemma liquidity_takeWhile_buy (l : List (ℚ × ℚ)) (price : ℚ) :
    _get_available_liquidity l price true
      = ((l.takeWhile (fun lv => decide (lv.1 ≤ price))).map Prod.snd).sum := by
  induction l with
  | nil => rfl
  | cons a t ih =>
      obtain ⟨a1, a2⟩ := a
      by_cases h : a1 ≤ price
      · simp [_get_available_liquidity, List.takeWhile_cons, h, ih]
      · simp [_get_available_liquidity, List.takeWhile_cons, h]

lemma liquidity_takeWhile_sell (l : List (ℚ × ℚ)) (price : ℚ) :
    _get_available_liquidity l price false
      = ((l.takeWhile (fun lv => decide (price ≤ lv.1))).map Prod.snd).sum := by
  induction l with
  | nil => rfl
  | cons a t ih =>
      obtain ⟨a1, a2⟩ := a
      by_cases h : price ≤ a1
      · simp [_get_available_liquidity, List.takeWhile_cons, h, ih]
      · simp [_get_available_liquidity, List.takeWhile_cons, h]

lemma if_lt_eq_min (a b : ℚ) : (if a < b then a else b) = min b a := by
  by_cases h : a < b
  · rw [if_pos h, min_eq_right (le_of_lt h)]
  · rw [if_neg h, min_eq_left (le_of_not_lt h)]

lemma walk_levels_total (l : List (ℚ × ℚ)) (r : ℚ) :
    (_walk_levels l r).2.1 + (_walk_levels l r).2.2 = r := by
  induction l generalizing r with
  | nil => simp [_walk_levels]
  | cons a t ih =>
      obtain ⟨a1, a2⟩ := a
      by_cases h : r ≤ 0
      · simp [_walk_levels, h]
      · simp only [_walk_levels, h, if_false]
        have hk := ih (r - min r a2)
        linarith

lemma walk_levels_rem_nonneg (l : List (ℚ × ℚ)) (r : ℚ) (h : 0 ≤ r) :
    0 ≤ (_walk_levels l r).2.2 := by
  induction l generalizing r with
  | nil => simpa [_walk_levels] using h
  | cons a t ih =>
      obtain ⟨a1, a2⟩ := a
      by_cases h0 : r ≤ 0
      · simpa [_walk_levels, h0] using h
      · simp only [_walk_levels, h0, if_false]
        exact ih (r - min r a2) (by simp [min_le_left])

lemma walk_levels_rem_of_nonpos (l : List (ℚ × ℚ)) (r : ℚ) (h : r ≤ 0) :
    (_walk_levels l r).2.2 = r := by
  cases l with
  | nil => rfl
  | cons a t =>
      obtain ⟨a1, a2⟩ := a
      simp [_walk_levels, h]

lemma walk_levels_filled_of_rem_pos (l : List (ℚ × ℚ)) (r : ℚ)
    (h : 0 < (_walk_levels l r).2.2) :
    (_walk_levels l r).2.1 = (l.map Prod.snd).sum := by
  induction l generalizing r with
  | nil => simp [_walk_levels]
  | cons a t ih =>
      obtain ⟨a1, a2⟩ := a
      by_cases h0 : r ≤ 0
      · rw [_walk_levels] at h
        simp only [h0, if_true] at h
        exact absurd h (by linarith)
      · have hfill : a2 ≤ r := by
          by_contra hc
          push_neg at hc
          have hmin : min r a2 = r := min_eq_left (le_of_lt hc)
          rw [_walk_levels] at h
          simp only [h0, if_false] at h
          rw [hmin, sub_self, walk_levels_rem_of_nonpos t 0 (le_refl 0)] at h
          exact absurd h (by linarith)
        have hmin : min r a2 = a2 := min_eq_right hfill
        rw [_walk_levels] at h ⊢
        simp only [h0, if_false] at h ⊢
        rw [hmin] at h ⊢
        rw [ih (r - a2) h]
        simp

lemma walk_order_book_snd (l : List (ℚ × ℚ)) (size sp : ℚ) (is_buy : Bool)
    (h : 0 ≤ size) :
    (_walk_order_book l size sp is_buy).2 = size := by
  cases l with
  | nil => rfl
  | cons a t =>
      rw [_walk_order_book]
      by_cases hr : 0 < (_walk_levels ((a :: t).take 10) size).2.2
      · simp only [hr, if_true]
        have := walk_levels_total ((a :: t).take 10) size
        split_ifs <;> simpa using this
      · simp only [hr, if_false]
        have h0 : (_walk_levels ((a :: t).take 10) size).2.2 = 0 :=
          le_antisymm (le_of_not_lt hr) (walk_levels_rem_nonneg _ _ h)
        have := walk_levels_total ((a :: t).take 10) size
        rw [h0, add_zero] at this
        split_ifs <;> simpa using this

lemma walk_order_book_eq (l : List (ℚ × ℚ)) (size sp : ℚ) (is_buy : Bool)
    (hl : l ≠ []) (hs : 0 < size) :
    _walk_order_book l size sp is_buy
      = (((_walk_levels (l.take 10) size).1
          + (if 0 < (_walk_levels (l.take 10) size).2.2
             then (_walk_levels (l.take 10) size).2.2
                * ((l.getD (min 9 (l.length - 1)) (0, 0)).1
                    * (if is_buy then (102 : ℚ) / 100 else 98 / 100))
             else 0)) / size, size) := by
  cases l with
  | nil => exact absurd rfl hl
  | cons a t =>
      rw [_walk_order_book]
      have htot := walk_levels_total ((a :: t).take 10) size
      by_cases hr : 0 < (_walk_levels ((a :: t).take 10) size).2.2
      · simp only [hr, if_true]
        have hfs : (_walk_levels ((a :: t).take 10) size).2.1
            + (_walk_levels ((a :: t).take 10) size).2.2 = size := htot
        rw [hfs]
        rw [if_pos hs]
      · simp only [hr, if_false]
        have h0 : (_walk_levels ((a :: t).take 10) size).2.2 = 0 :=
          le_antisymm (le_of_not_lt hr) (walk_levels_rem_nonneg _ _ (le_of_lt hs))
        rw [h0, add_zero] at htot
        rw [htot, if_pos hs, add_zero]

lemma last_walked_level (l : List (ℚ × ℚ)) (hl : l ≠ []) :
    l.getD (min 9 (l.length - 1)) (0, 0)
      = (l.take 10).getD ((l.take 10).length - 1) (0, 0) := by
  have hlen : 1 ≤ l.length := by
    cases l with
    | nil => exact absurd rfl hl
    | cons a t => simp
  rw [List.getD_eq_getElem?_getD, List.getD_eq_getElem?_getD]
  rw [List.length_take]
  have hidx : min 10 l.length - 1 = min 9 (l.length - 1) := by omega
  rw [hidx]
  rw [List.getElem?_take]
  rw [if_pos (by omega)]

/-! ## Theorems -/

/-- Claim C7: for every price, size and maker flag, `calculate_fee` returns
`price * size * rate` with maker rebate rate `-0.0002` and taker rate
`0.0005`; in particular the fee on notional 100 times 10 is `-0.2` for a
maker and `+0.5` for a taker. -/
theorem calculate_fee_spec (price size : ℚ) (is_maker : Bool) :
    calculate_fee price size is_maker
      = price * size * (if is_maker then (-2 : ℚ) / 10000 else (5 : ℚ) / 10000)
    ∧ calculate_fee 100 10 true = -(2 : ℚ) / 10
    ∧ calculate_fee 100 10 false = (5 : ℚ) / 10 := by
  refine ⟨?_, by norm_num [calculate_fee, MAKER_FEE_RATE],
    by norm_num [calculate_fee, TAKER_FEE_RATE]⟩
  cases is_maker <;> simp [calculate_fee, MAKER_FEE_RATE, TAKER_FEE_RATE]

/-- Claim C9: `cancel_all_orders` empties the resting-order set and leaves
every other component of the portfolio state unchanged. -/
theorem cancel_all_orders_spec (pf : PortfolioTracker) :
    (cancel_all_orders pf).open_orders = []
    ∧ (cancel_all_orders pf).balance = pf.balance
    ∧ (cancel_all_orders pf).long_pos = pf.long_pos
    ∧ (cancel_all_orders pf).short_pos = pf.short_pos
    ∧ (cancel_all_orders pf).total_trades = pf.total_trades
    ∧ (cancel_all_orders pf).winning_trades = pf.winning_trades
    ∧ (cancel_all_orders pf).peak_balance = pf.peak_balance
    ∧ (cancel_all_orders pf).max_drawdown = pf.max_drawdown
    ∧ (cancel_all_orders pf).total_fees_paid = pf.total_fees_paid
    ∧ (cancel_all_orders pf).initial_balance = pf.initial_balance
    ∧ (cancel_all_orders pf).max_leverage = pf.max_leverage := by
  repeat' constructor

/-- Claim C4, counterexample: it is false that both fill paths keep every
ledger mutation after the latency sleep — in the monitoring loop the order
removal and the fee application precede the sleep. -/
theorem latency_claim_false :
    ¬ (latency_before_mutations open_market_order_steps
       ∧ latency_before_mutations monitor_fill_steps) := by
  decide

/-- Claim C4, amended: for market orders the latency sleep follows the
margin decision and precedes every ledger mutation; for monitoring-loop
fills the order removal and fee application happen before the sleep, and
only the position/balance update happens after it. -/
theorem latency_order_amended :
    latency_before_mutations open_market_order_steps
    ∧ (open_market_order_steps.takeWhile
        (fun e => !(e == FillStep.latency_sleep))) = [FillStep.margin_check]
    ∧ ((monitor_fill_steps.takeWhile
        (fun e => !(e == FillStep.latency_sleep))).filter is_ledger_mutation)
      = [FillStep.remove_order_step, FillStep.apply_fee_step]
    ∧ ((monitor_fill_steps.dropWhile
        (fun e => !(e == FillStep.latency_sleep))).filter is_ledger_mutation)
      = [FillStep.update_position_step] := by
  decide

/-- Claim C5: the margin check approves exactly when
`equity - usedMargin ≥ requiredMargin`, with `requiredMargin =
size*price/maxLeverage`, `equity = balance + unrealizedPnl(markPrice)`
summed per position with the long/short sign convention, and
`usedMargin = (Σ |positionSize| * markPrice) / maxLeverage`. -/
theorem can_open_position_spec (pf : PortfolioTracker)
    (size price mark_price : ℚ) :
    can_open_position pf size price mark_price = true
    ↔ (pf.balance
        + ((positions_list pf).map (fun p =>
            match p.side with
            | PositionSide.LONG => (mark_price - p.entry_price) * p.size
            | PositionSide.SHORT => (p.entry_price - mark_price) * p.size)).sum)
      - ((positions_list pf).map (fun p => |p.size| * mark_price)).sum
          / pf.max_leverage
      ≥ size * price / pf.max_leverage := by
  simp only [can_open_position, get_equity, get_unrealized_pnl,
    get_total_position_value, position_unrealized_pnl, decide_eq_true_eq,
    ge_iff_le]

/-- Claim C6: across every sequence of portfolio operations the peak
balance and the max drawdown are monotonically non-decreasing; every
operation other than `record_trade` leaves both untouched; and
`record_trade` first raises the peak to `max(peak, balance)` and then
raises the max drawdown to `max(maxDrawdown, (peak - balance)/peak)`
using the updated peak and the balance current at the close. -/
theorem peak_drawdown_monotone (pf : PortfolioTracker) (ops : List PortfolioOp)
    (prof : Bool) :
    (pf.peak_balance ≤ (apply_portfolio_ops pf ops).peak_balance
      ∧ pf.max_drawdown ≤ (apply_portfolio_ops pf ops).max_drawdown)
    ∧ (∀ op : PortfolioOp, (∀ b : Bool, op ≠ PortfolioOp.record_trade_op b) →
        (apply_portfolio_op pf op).peak_balance = pf.peak_balance
        ∧ (apply_portfolio_op pf op).max_drawdown = pf.max_drawdown)
    ∧ ((record_trade pf prof).peak_balance = max pf.peak_balance pf.balance
       ∧ (record_trade pf prof).max_drawdown
          = max pf.max_drawdown
              ((max pf.peak_balance pf.balance - pf.balance)
                / max pf.peak_balance pf.balance)) := by
  refine ⟨apply_ops_peak_drawdown_mono ops pf, ?_,
    record_trade_peak pf prof, record_trade_drawdown pf prof⟩
  intro op hop
  cases op with
  | add_order_op o =>
      rw [apply_portfolio_op]
      exact add_order_frame pf o
  | remove_order_op oid =>
      rw [apply_portfolio_op]
      exact remove_order_frame pf oid
  | update_position_op s sz ep pnl =>
      rw [apply_portfolio_op]
      exact ⟨update_position_peak pf s sz ep pnl,
        update_position_drawdown pf s sz ep pnl⟩
  | apply_fee_op f =>
      rw [apply_portfolio_op]
      exact ⟨rfl, rfl⟩
  | record_trade_op b =>
      exact absurd rfl (hop b)

/-- Witness for claim C6: the monotonicity theorem instantiated on a
concrete operation sequence, with the inner no-record hypothesis discharged
on the fee operation. -/
theorem peak_drawdown_monotone_witness :
    (sample_portfolio.peak_balance
        ≤ (apply_portfolio_ops sample_portfolio
            [PortfolioOp.apply_fee_op 100,
             PortfolioOp.record_trade_op false]).peak_balance
      ∧ sample_portfolio.max_drawdown
        ≤ (apply_portfolio_ops sample_portfolio
            [PortfolioOp.apply_fee_op 100,
             PortfolioOp.record_trade_op false]).max_drawdown)
    ∧ ((apply_portfolio_op sample_portfolio
          (PortfolioOp.apply_fee_op 100)).peak_balance
        = sample_portfolio.peak_balance
       ∧ (apply_portfolio_op sample_portfolio
            (PortfolioOp.apply_fee_op 100)).max_drawdown
          = sample_portfolio.max_drawdown) := by
  have h := peak_drawdown_monotone sample_portfolio
    [PortfolioOp.apply_fee_op 100, PortfolioOp.record_trade_op false] false
  exact ⟨h.1, h.2.1 (PortfolioOp.apply_fee_op 100) (by intro b hb; cases hb)⟩

/-- A resting order used to instantiate hypothesis-bearing theorems. -/
def sample_order : DataOrder :=
  { id := "a", side := OrderSide.BUY, size := 1, price := 100 }

/-- The sample portfolio holding one resting order. -/
def sample_portfolio_with_order : PortfolioTracker :=
  { sample_portfolio with open_orders := [sample_order] }

/-- Claim C8: when an order with the given id is resting,
`modify_limit_order` removes it and inserts a new order under the same id
with the new side, size and price, returning the new order; when no order
with that id exists it returns `none` and the whole portfolio state is
unchanged. -/
theorem modify_limit_order_spec (pf : PortfolioTracker) (order_id : String)
    (order_side : OrderSide) (order_size price : ℚ) :
    (∀ old : DataOrder,
       pf.open_orders.find? (fun o => o.id == order_id) = some old →
       modify_limit_order pf order_id order_side order_size price =
         (some { id := order_id, side := order_side, size := order_size,
                 price := price },
          { pf with open_orders :=
              pf.open_orders.filter (fun o => !(o.id == order_id))
                ++ [{ id := order_id, side := order_side, size := order_size,
                      price := price }] }))
    ∧ (pf.open_orders.find? (fun o => o.id == order_id) = none →
       modify_limit_order pf order_id order_side order_size price = (none, pf)) :=
  ⟨fun old h => modify_limit_order_found pf order_id order_side order_size price old h,
   fun h => modify_limit_order_not_found pf order_id order_side order_size price h⟩

/-- Witness for claim C8: both branches of the theorem instantiated on the
sample portfolio, where order "a" rests and order "zz" does not. -/
theorem modify_limit_order_spec_witness :
    modify_limit_order sample_portfolio_with_order "a" OrderSide.SELL 2 50
      = (some { id := "a", side := OrderSide.SELL, size := 2, price := 50 },
         { sample_portfolio_with_order with open_orders :=
             [{ id := "a", side := OrderSide.SELL, size := 2, price := 50 }] })
    ∧ modify_limit_order sample_portfolio_with_order "zz" OrderSide.SELL 2 50
      = (none, sample_portfolio_with_order) := by
  constructor
  · have h := (modify_limit_order_spec sample_portfolio_with_order "a"
      OrderSide.SELL 2 50).1 sample_order (by rfl)
    exact h
  · exact (modify_limit_order_spec sample_portfolio_with_order "zz"
      OrderSide.SELL 2 50).2 (by rfl)

/-- Claim C10: `modify_limit_order` performs no margin check — with an
existing id and any new size and price it accepts the replacement even when
the margin check fails — whereas `open_limit_order` with the same terms,
`is_reduce` false and insufficient margin rejects with `none` and creates
no order. -/
theorem modify_limit_order_no_margin_check (pf : PortfolioTracker)
    (order_id fresh_id : String) (order_side : OrderSide)
    (order_size price mark_price : ℚ)
    (h_exists : (pf.open_orders.find? (fun o => o.id == order_id)).isSome = true)
    (h_mark : mark_price ≠ 0)
    (h_margin : can_open_position pf order_size price mark_price = false) :
    (modify_limit_order pf order_id order_side order_size price).1
      = some { id := order_id, side := order_side, size := order_size,
               price := price }
    ∧ open_limit_order pf fresh_id order_side order_size price (some mark_price)
        false = (none, pf) := by
  constructor
  · obtain ⟨old, hold⟩ := Option.isSome_iff_exists.mp h_exists
    rw [modify_limit_order_found pf order_id order_side order_size price old hold]
  · unfold open_limit_order
    simp [h_mark, h_margin]

/-- Witness for claim C10: the sample portfolio (1000 USDC, 5x leverage)
cannot afford a 100-at-100 order, yet `modify_limit_order` on the resting
order "a" still accepts those terms while `open_limit_order` rejects them. -/
theorem modify_limit_order_no_margin_check_witness :
    ((modify_limit_order sample_portfolio_with_order "a" OrderSide.BUY 100 100).1
       = some { id := "a", side := OrderSide.BUY, size := 100, price := 100 })
    ∧ open_limit_order sample_portfolio_with_order "fresh" OrderSide.BUY 100 100
        (some 100) false = (none, sample_portfolio_with_order) :=
  modify_limit_order_no_margin_check sample_portfolio_with_order "a" "fresh"
    OrderSide.BUY 100 100 100 (by rfl) (by norm_num)
    (by
      unfold can_open_position get_equity get_unrealized_pnl
        get_total_position_value positions_list sample_portfolio_with_order
        sample_portfolio
      norm_num)

/-- Claim C2: a BUY limit order returns no fill when the best ask exceeds
the order price; otherwise the maker flag is `order.price < bestBid`, the
fill price is the order price for a maker and `min(order.price, bestAsk)`
for a taker, and the fill size is `min(order.size, L)` where `L` sums the
sell-level sizes with price at most the order price, stopping at the first
level above it; a fill is returned exactly when that size is positive.  The
SELL case mirrors this on bid levels with the opposite inequalities. -/
theorem check_limit_order_fill_spec (order : DataOrder)
    (bid_price ask_price : ℚ) (buy_orders_list sell_orders_list : List (ℚ × ℚ)) :
    (order.side = OrderSide.BUY →
      ((order.price < ask_price →
          check_limit_order_fill order bid_price ask_price buy_orders_list
            sell_orders_list = none)
       ∧ (ask_price ≤ order.price →
          check_limit_order_fill order bid_price ask_price buy_orders_list
              sell_orders_list
            = (if 0 < min order.size
                  (((sell_orders_list.takeWhile
                      (fun lv => decide (lv.1 ≤ order.price))).map Prod.snd).sum)
               then some
                 ((if order.price < bid_price then order.price
                   else min order.price ask_price),
                  min order.size
                    (((sell_orders_list.takeWhile
                        (fun lv => decide (lv.1 ≤ order.price))).map Prod.snd).sum),
                  decide (order.price < bid_price))
               else none))))
    ∧ (order.side = OrderSide.SELL →
      ((bid_price < order.price →
          check_limit_order_fill order bid_price ask_price buy_orders_list
            sell_orders_list = none)
       ∧ (order.price ≤ bid_price →
          check_limit_order_fill order bid_price ask_price buy_orders_list
              sell_orders_list
            = (if 0 < min order.size
                  (((buy_orders_list.takeWhile
                      (fun lv => decide (order.price ≤ lv.1))).map Prod.snd).sum)
               then some
                 ((if ask_price < order.price then order.price
                   else max order.price bid_price),
                  min order.size
                    (((buy_orders_list.takeWhile
                        (fun lv => decide (order.price ≤ lv.1))).map Prod.snd).sum),
                  decide (ask_price < order.price))
               else none)))) := by
  constructor
  · intro hside
    constructor
    · intro h
      simp only [check_limit_order_fill, hside]
      rw [if_neg (not_le.mpr h)]
    · intro h
      simp only [check_limit_order_fill, hside]
      rw [if_pos h, liquidity_takeWhile_buy, if_lt_eq_min]
      simp only [decide_eq_true_eq]
  · intro hside
    constructor
    · intro h
      simp only [check_limit_order_fill, hside]
      rw [if_neg (not_le.mpr h)]
    · intro h
      simp only [check_limit_order_fill, hside]
      rw [if_pos h, liquidity_takeWhile_sell, if_lt_eq_min]
      simp only [decide_eq_true_eq]

/-- Witness for claim C2: the worked example of the spec — a BUY limit at
99 with bid 98, ask 99 and 15 units of sell liquidity at 99 fills fully as
a taker at 99. -/
theorem check_limit_order_fill_spec_witness :
    check_limit_order_fill
        { id := "o", side := OrderSide.BUY, size := 10, price := 99 }
        98 99 [] [(99, 15)]
      = some (99, 10, false) := by
  have h := ((check_limit_order_fill_spec
      { id := "o", side := OrderSide.BUY, size := 10, price := 99 }
      98 99 [] [(99, 15)]).1 rfl).2 (by norm_num)
  rw [h]
  norm_num [List.takeWhile]

/-- Claim C3: a simulated market order always reports full execution
(`filledSize = size`); an empty opposing book fills the whole size at the
reference price times 1.01 for a BUY (0.99 for a SELL); otherwise at most
the first ten levels are consumed, a positive leftover executes at the
worst consumed level price times 1.02 for a BUY (0.98 for a SELL) — with
every one of those ten levels fully consumed and the padding level being
the last of them — and the returned price is total cost over total size. -/
theorem simulate_market_order_fill_spec (side : OrderSide)
    (size bid_price ask_price : ℚ)
    (buy_orders_list sell_orders_list : List (ℚ × ℚ)) (h_size : 0 ≤ size) :
    (simulate_market_order_fill side size bid_price ask_price buy_orders_list
        sell_orders_list).2 = size
    ∧ (side = OrderSide.BUY → sell_orders_list = [] →
        simulate_market_order_fill side size bid_price ask_price buy_orders_list
          sell_orders_list = (ask_price * ((101 : ℚ) / 100), size))
    ∧ (side = OrderSide.SELL → buy_orders_list = [] →
        simulate_market_order_fill side size bid_price ask_price buy_orders_list
          sell_orders_list = (bid_price * ((99 : ℚ) / 100), size))
    ∧ (side = OrderSide.BUY → sell_orders_list ≠ [] → 0 < size →
        (simulate_market_order_fill side size bid_price ask_price buy_orders_list
            sell_orders_list
          = (((_walk_levels (sell_orders_list.take 10) size).1
              + (if 0 < (_walk_levels (sell_orders_list.take 10) size).2.2
                 then (_walk_levels (sell_orders_list.take 10) size).2.2
                    * ((sell_orders_list.getD (min 9 (sell_orders_list.length - 1))
                          (0, 0)).1 * ((102 : ℚ) / 100))
                 else 0)) / size, size))
        ∧ (0 < (_walk_levels (sell_orders_list.take 10) size).2.2 →
            (_walk_levels (sell_orders_list.take 10) size).2.1
              = ((sell_orders_list.take 10).map Prod.snd).sum
            ∧ sell_orders_list.getD (min 9 (sell_orders_list.length - 1)) (0, 0)
              = (sell_orders_list.take 10).getD
                  ((sell_orders_list.take 10).length - 1) (0, 0)))
    ∧ (side = OrderSide.SELL → buy_orders_list ≠ [] → 0 < size →
        (simulate_market_order_fill side size bid_price ask_price buy_orders_list
            sell_orders_list
          = (((_walk_levels (buy_orders_list.take 10) size).1
              + (if 0 < (_walk_levels (buy_orders_list.take 10) size).2.2
                 then (_walk_levels (buy_orders_list.take 10) size).2.2
                    * ((buy_orders_list.getD (min 9 (buy_orders_list.length - 1))
                          (0, 0)).1 * ((98 : ℚ) / 100))
                 else 0)) / size, size))
        ∧ (0 < (_walk_levels (buy_orders_list.take 10) size).2.2 →
            (_walk_levels (buy_orders_list.take 10) size).2.1
              = ((buy_orders_list.take 10).map Prod.snd).sum
            ∧ buy_orders_list.getD (min 9 (buy_orders_list.length - 1)) (0, 0)
              = (buy_orders_list.take 10).getD
                  ((buy_orders_list.take 10).length - 1) (0, 0))) := by
  refine ⟨?_, ?_, ?_, ?_, ?_⟩
  · cases side <;>
      exact walk_order_book_snd _ _ _ _ h_size
  · intro hside hl
    subst hside; subst hl
    rfl
  · intro hside hl
    subst hside; subst hl
    rfl
  · intro hside hl hpos
    subst hside
    constructor
    · simpa only [simulate_market_order_fill] using
        walk_order_book_eq sell_orders_list size ask_price true hl hpos
    · intro hr
      exact ⟨walk_levels_filled_of_rem_pos _ _ hr, last_walked_level _ hl⟩
  · intro hside hl hpos
    subst hside
    constructor
    · simpa only [simulate_market_order_fill] using
        walk_order_book_eq buy_orders_list size bid_price false hl hpos
    · intro hr
      exact ⟨walk_levels_filled_of_rem_pos _ _ hr, last_walked_level _ hl⟩

/-- Witness for claim C3: a market BUY of 30 against levels 10 at 100,
10 at 100.5 and 10 at 101 fills fully at average 100.5, by the theorem. -/
theorem simulate_market_order_fill_spec_witness :
    simulate_market_order_fill OrderSide.BUY 30 99 100 []
        [(100, 10), (201 / 2, 10), (101, 10)]
      = ((201 : ℚ) / 2, 30) := by
  have h := (simulate_market_order_fill_spec OrderSide.BUY 30 99 100 []
      [(100, 10), (201 / 2, 10), (101, 10)] (by norm_num)).2.2.2.1
    rfl (by simp) (by norm_num)
  rw [h.1]
  norm_num [_walk_levels, min_def]

/-- Claim C1: processing a fill against an existing opposite-side position
closes exactly `min(fillSize, oppositeSize)` first: the balance grows by
the realized PnL computed from the opposite entry price and the fill price
with the opposite long/short sign, the opposite position shrinks to
`size - closeSize` (vanishing at zero), one trade is recorded with the win
counter bumped exactly when the realized PnL is positive, and only the
positive leftover `fillSize - closeSize` opens or adds to the own-side
position — adding uses the size-weighted average entry price
`(oldSize*oldEntry + addSize*fillPrice)/(oldSize+addSize)`, opening fresh
uses the fill price.  In particular a fill larger than the opposite
position leaves no opposite-side remnant. -/
theorem process_fill_spec (pf : PortfolioTracker) (order_side : OrderSide)
    (fill_price fill_size : ℚ) (opp : DataPosition)
    (h_opp : get_position pf (opposite_position_side order_side) = some opp)
    (h_cur : ∀ cur : DataPosition,
      get_position pf (implied_position_side order_side) = some cur →
        0 < cur.size) :
    (_process_fill pf order_side fill_price fill_size).balance
      = pf.balance
        + (match opposite_position_side order_side with
           | PositionSide.LONG =>
               (fill_price - opp.entry_price) * min fill_size opp.size
           | PositionSide.SHORT =>
               (opp.entry_price - fill_price) * min fill_size opp.size)
    ∧ get_position (_process_fill pf order_side fill_price fill_size)
        (opposite_position_side order_side)
      = (if opp.size - min fill_size opp.size = 0 then none
         else some { side := opposite_position_side order_side,
                     size := opp.size - min fill_size opp.size,
                     entry_price := opp.entry_price })
    ∧ (_process_fill pf order_side fill_price fill_size).total_trades
        = pf.total_trades + 1
    ∧ (_process_fill pf order_side fill_price fill_size).winning_trades
        = pf.winning_trades
          + (if 0 < (match opposite_position_side order_side with
               | PositionSide.LONG =>
                   (fill_price - opp.entry_price) * min fill_size opp.size
               | PositionSide.SHORT =>
                   (opp.entry_price - fill_price) * min fill_size opp.size)
             then 1 else 0)
    ∧ get_position (_process_fill pf order_side fill_price fill_size)
        (implied_position_side order_side)
      = (if 0 < fill_size - min fill_size opp.size then
           (match get_position pf (implied_position_side order_side) with
            | some cur =>
                some { side := implied_position_side order_side,
                       size := cur.size + (fill_size - min fill_size opp.size),
                       entry_price :=
                         (cur.size * cur.entry_price
                           + (fill_size - min fill_size opp.size) * fill_price)
                         / (cur.size + (fill_size - min fill_size opp.size)) }
            | none =>
                some { side := implied_position_side order_side,
                       size := fill_size - min fill_size opp.size,
                       entry_price := fill_price })
         else get_position pf (implied_position_side order_side))
    ∧ (opp.size < fill_size →
        get_position (_process_fill pf order_side fill_price fill_size)
          (opposite_position_side order_side) = none) := by
  cases order_side with
  | BUY =>
      simp only [opposite_position_side, implied_position_side] at h_opp h_cur ⊢
      simp only [_process_fill, implied_position_side, opposite_position_side, h_opp]
      simp only [calculate_realized_pnl, decide_eq_true_eq, ite_short_long]
      by_cases hrem : 0 < fill_size - min fill_size opp.size
      · rw [if_pos hrem]
        cases hcur2 : get_position pf PositionSide.LONG with
        | some cur =>
            have hcs : 0 < cur.size := h_cur cur hcur2
            have hne : cur.size + (fill_size - min fill_size opp.size) ≠ 0 :=
              ne_of_gt (by linarith)
            refine ⟨?_, ?_, ?_, ?_, ?_, ?_⟩
            · rw [update_position_balance, add_zero, record_trade_balance,
                update_position_balance]
            · simp only [get_position_update, ite_short_long,
                get_position_record_trade, get_position_update_same, if_true]
            · rw [update_position_total, record_trade_total, update_position_total]
            · rw [update_position_wins, record_trade_wins, update_position_wins]
              simp only [decide_eq_true_eq]
            · simp only [get_position_update, eq_self_iff_true, if_true, if_neg hne]
              have harg : cur.entry_price * cur.size
                    + fill_price * (fill_size - min fill_size opp.size)
                  = cur.size * cur.entry_price
                    + (fill_size - min fill_size opp.size) * fill_price := by ring
              rw [harg, if_pos hrem]
            · intro hlt
              simp only [get_position_update, ite_short_long,
                get_position_record_trade, get_position_update_same, if_true]
              rw [min_eq_right (le_of_lt hlt), sub_self, if_pos rfl]
        | none =>
            have hne : fill_size - min fill_size opp.size ≠ 0 := ne_of_gt hrem
            refine ⟨?_, ?_, ?_, ?_, ?_, ?_⟩
            · rw [update_position_balance, add_zero, record_trade_balance,
                update_position_balance]
            · simp only [get_position_update, ite_short_long,
                get_position_record_trade, get_position_update_same, if_true]
            · rw [update_position_total, record_trade_total, update_position_total]
            · rw [update_position_wins, record_trade_wins, update_position_wins]
              simp only [decide_eq_true_eq]
            · simp only [get_position_update, eq_self_iff_true, if_true, if_neg hne]
              rw [if_pos hrem]
            · intro hlt
              simp only [get_position_update, ite_short_long,
                get_position_record_trade, get_position_update_same, if_true]
              rw [min_eq_right (le_of_lt hlt), sub_self, if_pos rfl]
      · rw [if_neg hrem]
        refine ⟨?_, ?_, ?_, ?_, ?_, ?_⟩
        · rw [record_trade_balance, update_position_balance]
        · simp only [get_position_record_trade, get_position_update_same, if_true]
        · rw [record_trade_total, update_position_total]
        · rw [record_trade_wins, update_position_wins]
          simp only [decide_eq_true_eq]
        · simp only [get_position_record_trade, get_position_update,
            ite_long_short]
          rw [if_neg hrem]
        · intro hlt
          refine absurd ?_ hrem
          rw [min_eq_right (le_of_lt hlt)]
          linarith
  | SELL =>
      simp only [opposite_position_side, implied_position_side] at h_opp h_cur ⊢
      simp only [_process_fill, implied_position_side, opposite_position_side, h_opp]
      simp only [calculate_realized_pnl, decide_eq_true_eq, eq_self_iff_true, if_true]
      by_cases hrem : 0 < fill_size - min fill_size opp.size
      · rw [if_pos hrem]
        cases hcur2 : get_position pf PositionSide.SHORT with
        | some cur =>
            have hcs : 0 < cur.size := h_cur cur hcur2
            have hne : cur.size + (fill_size - min fill_size opp.size) ≠ 0 :=
              ne_of_gt (by linarith)
            refine ⟨?_, ?_, ?_, ?_, ?_, ?_⟩
            · rw [update_position_balance, add_zero, record_trade_balance,
                update_position_balance]
            · simp only [get_position_update, ite_long_short,
                get_position_record_trade, get_position_update_same, if_true]
            · rw [update_position_total, record_trade_total, update_position_total]
            · rw [update_position_wins, record_trade_wins, update_position_wins]
              simp only [decide_eq_true_eq]
            · simp only [get_position_update, eq_self_iff_true, if_true, if_neg hne]
              have harg : cur.entry_price * cur.size
                    + fill_price * (fill_size - min fill_size opp.size)
                  = cur.size * cur.entry_price
                    + (fill_size - min fill_size opp.size) * fill_price := by ring
              rw [harg, if_pos hrem]
            · intro hlt
              simp only [get_position_update, ite_long_short,
                get_position_record_trade, get_position_update_same, if_true]
              rw [min_eq_right (le_of_lt hlt), sub_self, if_pos rfl]
        | none =>
            have hne : fill_size - min fill_size opp.size ≠ 0 := ne_of_gt hrem
            refine ⟨?_, ?_, ?_, ?_, ?_, ?_⟩
            · rw [update_position_balance, add_zero, record_trade_balance,
                update_position_balance]
            · simp only [get_position_update, ite_long_short,
                get_position_record_trade, get_position_update_same, if_true]
            · rw [update_position_total, record_trade_total, update_position_total]
            · rw [update_position_wins, record_trade_wins, update_position_wins]
              simp only [decide_eq_true_eq]
            · simp only [get_position_update, eq_self_iff_true, if_true, if_neg hne]
              rw [if_pos hrem]
            · intro hlt
              simp only [get_position_update, ite_long_short,
                get_position_record_trade, get_position_update_same, if_true]
              rw [min_eq_right (le_of_lt hlt), sub_self, if_pos rfl]
      · rw [if_neg hrem]
        refine ⟨?_, ?_, ?_, ?_, ?_, ?_⟩
        · rw [record_trade_balance, update_position_balance]
        · simp only [get_position_record_trade, get_position_update_same, if_true]
        · rw [record_trade_total, update_position_total]
        · rw [record_trade_wins, update_position_wins]
          simp only [decide_eq_true_eq]
        · simp only [get_position_record_trade, get_position_update,
            ite_short_long]
          rw [if_neg hrem]
        · intro hlt
          refine absurd ?_ hrem
          rw [min_eq_right (le_of_lt hlt)]
          linarith

/-- The sample portfolio holding a SHORT position of 5 at entry 100. -/
def sample_portfolio_with_short : PortfolioTracker :=
  { sample_portfolio with
      short_pos := some { side := PositionSide.SHORT, size := 5, entry_price := 100 } }

/-- Witness for claim C1: a BUY fill of 8 at 90 against the SHORT 5 at 100
closes the whole short (realizing 50 into the balance), leaves no
short-side remnant, and opens a LONG of the leftover 3 at 90. -/
theorem process_fill_spec_witness :
    (_process_fill sample_portfolio_with_short OrderSide.BUY 90 8).balance = 1050
    ∧ get_position (_process_fill sample_portfolio_with_short OrderSide.BUY 90 8)
        PositionSide.SHORT = none
    ∧ get_position (_process_fill sample_portfolio_with_short OrderSide.BUY 90 8)
        PositionSide.LONG
      = some { side := PositionSide.LONG, size := 3, entry_price := 90 }
    ∧ (_process_fill sample_portfolio_with_short OrderSide.BUY 90 8).total_trades
      = 1 := by
  have h := process_fill_spec sample_portfolio_with_short OrderSide.BUY 90 8
    { side := PositionSide.SHORT, size := 5, entry_price := 100 }
    (by rfl)
    (fun cur hc => absurd hc
      (by simp [sample_portfolio_with_short, sample_portfolio, get_position,
        implied_position_side]))
  obtain ⟨hb, hs, ht, hw, hl, he⟩ := h
  simp only [opposite_position_side, implied_position_side] at hb hs ht hw hl he
  refine ⟨?_, ?_, ?_, ?_⟩
  · rw [hb]
    norm_num [sample_portfolio_with_short, sample_portfolio,
      opposite_position_side, min_def]
  · rw [hs]
    norm_num [min_def]
  · rw [hl]
    norm_num [min_def, implied_position_side, sample_portfolio_with_short,
      sample_portfolio, get_position]
  · rw [ht]
    norm_num [sample_portfolio_with_short, sample_portfolio]

end PaperBot
